import Mathlib

/-
Verification of the txtrpg repository (tvarney/txtrpg).

This file is a shallow embedding, in Lean 4, of the data model and the
operations of the txtrpg program: the resource registry
(src/rpg/data/resources.py), the resource model (src/rpg/data/resource.py),
the attribute/derived-stat system (src/rpg/data/attributes.py), the game
state machine (src/rpg/state.py), the view stack (src/rpg/ui/views.py) and
the package loader (src/rpg/io/package.py).  Python dictionaries are
embedded as insertion-ordered association lists, Python integers as Int,
Python strings as String, raised exceptions as explicit error values, and
side effects (logging, GUI display calls) as explicit event lists.
-/

namespace Txtrpg

/-- Embedding of Python str.strip(): remove leading and trailing whitespace
characters from a string. -/
def pyStrip (s : String) : String :=
  ⟨(((s.data.dropWhile Char.isWhitespace).reverse.dropWhile
      Char.isWhitespace).reverse)⟩

/-- Embedding of Python str(x) for an optional string value: None renders
as the text None, a string renders as itself.  Used by the merge error
formatting, where the stored package may be None. -/
def pyStrOpt : Option String → String
  | some s => s
  | none => "None"

/-- Embedding of Python repr of a string (as rendered inside str(list)):
the string surrounded by single quotation marks. -/
def pyReprStr (s : String) : String :=
  "'" ++ s ++ "'"

/-- Embedding of Python str of a list of strings: the bracketed,
comma-separated reprs of the elements. -/
def pyStrList (l : List String) : String :=
  "[" ++ String.intercalate ", " (l.map pyReprStr) ++ "]"

/-- Embedding of the Python test name.startswith ("_"): whether the first
character of the string is an underscore. -/
def startsWithUnderscore (name : String) : Bool :=
  match name.data with
  | [] => false
  | c :: _ => c == '_'

/- ## The resource model: src/rpg/data/resource.py -/

/-- Embedding of the ResourceType enum tag values of
src/rpg/data/resource.py (Location = 0, Dialog = 1, Item = 2, Monster = 3,
Callback = 4).  The enum also holds the sentinel member COUNT = 5, which is
not the tag of any resource; it is embedded separately as
ResourceType.COUNT. -/
inductive ResourceType where
  | Location
  | Dialog
  | Item
  | Monster
  | Callback
deriving DecidableEq, Repr

/-- The sentinel member COUNT = 5 of the ResourceType enum. -/
def ResourceType.COUNT : Nat := 5

/-- The tag members of the ResourceType enum, in declaration order, with
their names. -/
def ResourceType.tagMembers : List (String × ResourceType) :=
  [("Location", .Location), ("Dialog", .Dialog), ("Item", .Item),
   ("Monster", .Monster), ("Callback", .Callback)]

/-- The names of all members of the ResourceType enum of
src/rpg/data/resource.py, in declaration order (the sentinel COUNT is a
member of the Python enum). -/
def ResourceType.memberNames : List String :=
  (ResourceType.tagMembers.map Prod.fst) ++ ["COUNT"]

/-- The integer value of each tag member of the ResourceType enum. -/
def ResourceType.value : ResourceType → Nat
  | .Location => 0
  | .Dialog => 1
  | .Item => 2
  | .Monster => 3
  | .Callback => 4

/-- The name of a ResourceType tag, as Python t.name returns it. -/
def ResourceType.name : ResourceType → String
  | .Location => "Location"
  | .Dialog => "Dialog"
  | .Item => "Item"
  | .Monster => "Monster"
  | .Callback => "Callback"

/-- All ResourceType tag values, in enum declaration order.  The _map list
of a Resources collection has one dictionary per tag, in this order. -/
def ResourceType.all : List ResourceType :=
  [.Location, .Dialog, .Item, .Monster, .Callback]

instance : Fintype ResourceType :=
  Fintype.ofList ResourceType.all (by intro x; cases x <;> decide)

/-- Embedding of Python attribute access on the ResourceType enum class:
getattr succeeds exactly for the declared tag members and yields the
member; any other attribute name raises AttributeError (embedded as none).
The sentinel COUNT is only ever referenced statically by the source and is
not a tag, so it is not in this table. -/
def ResourceType.pyattr (attr : String) : Option ResourceType :=
  ResourceType.tagMembers.lookup attr

/-- Embedding of a Resource object (src/rpg/data/resource.py).  Every
resource holds the _type_id and _resource_id set by Resource.__init__ and
the _package name filled in by the package loader.  The payload field
abstracts the object identity and all subclass state (location text,
monster template data, ...), so that two distinct resource objects with the
same tag and id can be told apart. -/
structure Resource where
  type_id : ResourceType
  resource_id : String
  package : Option String
  payload : Nat
deriving DecidableEq, Repr

/-- Embedding of Resource.__init__: store the given tag and id; the
_package starts as None. -/
def Resource.make (type_id : ResourceType) (resource_id : String)
    (payload : Nat) : Resource :=
  { type_id := type_id, resource_id := resource_id, package := none,
    payload := payload }

/- ## Python dictionaries as insertion-ordered association lists -/

/-- Embedding of Python dict.get(key, None) on a str-keyed dictionary. -/
def dictGet : List (String × Resource) → String → Option Resource
  | [], _ => none
  | (k, v) :: rest, key => if k = key then some v else dictGet rest key

/-- Embedding of the Python membership test key in dict. -/
def dictContains (m : List (String × Resource)) (key : String) : Bool :=
  (dictGet m key).isSome

/-- Embedding of Python dict assignment d[key] = value: replace the value
in place when the key is present (keeping its position), otherwise append
the new binding at the end. -/
def dictSet : List (String × Resource) → String → Resource →
    List (String × Resource)
  | [], key, v => [(key, v)]
  | (k, w) :: rest, key, v =>
      if k = key then (key, v) :: rest else (k, w) :: dictSet rest key v

/- ## The Resources registry: src/rpg/data/resources.py -/

/-- Embedding of a Resources collection: the _map list of
ResourceType.COUNT dictionaries, indexed by a ResourceType tag value. -/
structure Resources where
  map : ResourceType → List (String × Resource)

/-- The empty Resources collection created by Resources.__init__. -/
def Resources.empty : Resources :=
  { map := fun _ => [] }

/-- Well-formedness maintained by the class: in every per-type dictionary
the keys are pairwise distinct, every stored resource carries the tag of
its dictionary, and every stored resource is keyed by its own
resource_id. -/
def Resources.WF (rs : Resources) : Prop :=
  ∀ t : ResourceType,
    ((rs.map t).map Prod.fst).Nodup ∧
    ∀ p ∈ rs.map t, p.2.type_id = t ∧ p.2.resource_id = p.1

instance (rs : Resources) : Decidable rs.WF := by
  unfold Resources.WF
  infer_instance

/-- Embedding of the exception raised by Resources.add for a duplicate id:
it carries the resource_id and the name of the ResourceType. -/
structure ResourceAlreadyDefinedError where
  resource_id : String
  name : String
deriving DecidableEq, Repr

/-- Embedding of Resources.add: look the resource_id up in the dictionary
of the resource type; raise ResourceAlreadyDefinedError when present,
otherwise store the binding.  The returned collection is the state of the
object after the call: on the raising path the raise happens before any
mutation, so the collection is returned unchanged. -/
def Resources.add (rs : Resources) (item : Resource) :
    Resources × Option ResourceAlreadyDefinedError :=
  let type_id := item.type_id
  let resource_id := item.resource_id
  let collection := rs.map type_id
  if dictContains collection resource_id then
    (rs, some { resource_id := resource_id, name := type_id.name })
  else
    ({ map := fun t =>
        if t = type_id then dictSet collection resource_id item
        else rs.map t },
     none)

/-- Embedding of Resources.get: look the resource_id up in the dictionary
of the given type, returning None when absent. -/
def Resources.get (rs : Resources) (type_id : ResourceType)
    (resource_id : String) : Option Resource :=
  dictGet (rs.map type_id) resource_id

/-- Embedding of Resources.enumerate with no type filter: yield
(value.type_id(), key, value) for each binding of each per-type dictionary,
in enum declaration order. -/
def Resources.enumerate (rs : Resources) :
    List (ResourceType × String × Resource) :=
  ResourceType.all.flatMap fun t =>
    (rs.map t).map fun p => (p.2.type_id, p.1, p.2)

/-- Embedding of Resources.count with no type filter: the total number of
bindings over all per-type dictionaries. -/
def Resources.count (rs : Resources) : Nat :=
  (ResourceType.all.map fun t => (rs.map t).length).sum

/-- Embedding of the single dictionary write self._map[t_id][key] = value
used by Resources.merge. -/
def Resources.set (rs : Resources) (t : ResourceType) (key : String)
    (value : Resource) : Resources :=
  { map := fun t0 =>
      if t0 = t then dictSet (rs.map t) key value else rs.map t0 }

/-- The _fmtReplaceError template of src/rpg/data/resources.py, applied to
its four arguments (tag name, key, old package, master list) exactly as
str.format renders them. -/
def fmtReplaceError (tname key : String) (oldpkg : Option String)
    (masters : List String) : String :=
  "cannot replace " ++ tname ++ " " ++ key ++ "; master " ++
    pyStrOpt oldpkg ++ " not in allowed list " ++ pyStrList masters

/-- Embedding of the Python membership test old_pkg in masters, where the
stored package may be None. -/
def pkgMem (pkg : Option String) (masters : List String) : Bool :=
  match pkg with
  | some p => masters.contains p
  | none => false

/-- The body of the merge loop of Resources.merge, processing one
enumerated (t_id, key, value) item of the other collection against the
accumulated collection and error string. -/
def mergeStep (masters : List String) (acc : Resources × String)
    (e : ResourceType × String × Resource) : Resources × String :=
  match dictGet (acc.1.map e.1) e.2.1 with
  | some old_obj =>
      if pkgMem old_obj.package masters then
        (acc.1.set e.1 e.2.1 e.2.2, acc.2)
      else
        (acc.1,
         acc.2 ++ fmtReplaceError e.1.name e.2.1 old_obj.package masters)
  | none => (acc.1.set e.1 e.2.1 e.2.2, acc.2)

/-- The result of Resources.merge: the collection state after the call and
the returned optional error string. -/
structure MergeResult where
  resources : Resources
  error : Option String

/-- Embedding of Resources.merge: default the master list to the empty
list, process every enumerated item of the other collection in order, strip
the accumulated error string, and return None exactly when the stripped
string is empty. -/
def Resources.merge (rs : Resources) (other : Resources)
    (masters_arg : Option (List String)) : MergeResult :=
  let masters := masters_arg.getD []
  let res := other.enumerate.foldl (mergeStep masters) (rs, "")
  let error_str := pyStrip res.2
  { resources := res.1,
    error := if error_str = "" then none else some error_str }

/-- The conflicts of a merge of the given enumerated items into the
collection, in order: the items whose (type, id) is already bound in the
collection to a resource whose defining package is not in the master list.
Each conflict records the tag, the key and the defining package of the
resource which could not be replaced. -/
def conflictList (m : Resources)
    (items : List (ResourceType × String × Resource))
    (masters : List String) : List (ResourceType × String × Option String) :=
  items.filterMap fun e =>
    match dictGet (m.map e.1) e.2.1 with
    | some old_obj =>
        if pkgMem old_obj.package masters then none
        else some (e.1, e.2.1, old_obj.package)
    | none => none

/-- The list of conflicts of Resources.merge, in enumeration order. -/
def Resources.conflicts (rs : Resources) (other : Resources)
    (masters : List String) : List (ResourceType × String × Option String) :=
  conflictList rs other.enumerate masters

/-- The first item of an enumerated item list carrying the given tag and
key, if any. -/
def findEntry : List (ResourceType × String × Resource) → ResourceType →
    String → Option Resource
  | [], _, _ => none
  | e :: rest, t, k =>
      if e.1 = t ∧ e.2.1 = k then some e.2.2 else findEntry rest t k

/-- The rendered error message of one merge conflict. -/
def conflictMessage (masters : List String)
    (c : ResourceType × String × Option String) : String :=
  fmtReplaceError c.1.name c.2.1 c.2.2 masters

/-- The concatenation, in order, of the rendered error messages of a list
of merge conflicts: what the merge loop appends to its error string. -/
def joinMsgs (masters : List String) :
    List (ResourceType × String × Option String) → String
  | [] => ""
  | c :: rest => conflictMessage masters c ++ joinMsgs masters rest

/- ## The attribute system: src/rpg/data/attributes.py -/

/-- Embedding of the Attribute class: the _level and _value fields.  The
PrimaryAttribute subclass adds only the listener list, which in the model
is represented by the fixed observer wiring of the AttributeList (see
AttributeList.listeners). -/
structure Attribute where
  level : Int
  value : Int
deriving DecidableEq, Repr

/-- Embedding of Attribute.__init__(level, value): when the value is not
given it is assumed to be the same as the level. -/
def Attribute.make (level : Int) (value : Option Int) : Attribute :=
  { level := level, value := value.getD level }

/-- Embedding of Attribute.set_level: compute the difference to the new
level, bound a negative difference below by the negated current level, and
add the (possibly bounded) difference to both the level and the value. -/
def Attribute.set_level (a : Attribute) (new_value : Int) : Attribute :=
  let difference := new_value - a.level
  let difference := if difference < 0 then max (-a.level) difference
                    else difference
  { level := a.level + difference, value := a.value + difference }

/-- Embedding of Attribute.set_value: overwrite the value. -/
def Attribute.set_value (a : Attribute) (new_value : Int) : Attribute :=
  { a with value := new_value }

/-- The eight primary attributes held by an AttributeList, used to name
which PrimaryAttribute a SecondaryAttribute tracks. -/
inductive PrimaryName where
  | strength
  | dexterity
  | agility
  | constitution
  | intelligence
  | wisdom
  | charisma
  | luck
deriving DecidableEq, Repr

instance : Fintype PrimaryName :=
  Fintype.ofList
    [.strength, .dexterity, .agility, .constitution, .intelligence,
     .wisdom, .charisma, .luck]
    (by intro x; cases x <;> decide)

/-- Embedding of the SecondaryAttribute class: the inherited _level (the
base level) and _value, the _effective level, and the _tracked sequence of
(amount, primary attribute) pairs, with the attribute references embedded
as primary names. -/
structure SecondaryAttribute where
  base : Int
  value : Int
  effective : Int
  tracked : List (Int × PrimaryName)
deriving DecidableEq, Repr

/-- Embedding of SecondaryAttribute.__init__(level, value, tracked): the
effective level starts at the base level plus amount * attribute.level for
each tracked pair (reading each primary level through getLevel), and when
the value argument is None the value is set to the effective level.  The
side effect attribute.add(self) of the loop registers the new object as a
listener of every tracked primary; the registrations are represented by
AttributeList.listeners. -/
def SecondaryAttribute.make (level : Int) (value : Option Int)
    (tracked : List (Int × PrimaryName)) (getLevel : PrimaryName → Int) :
    SecondaryAttribute :=
  let effective :=
    tracked.foldl (fun acc p => acc + getLevel p.2 * p.1) level
  { base := level,
    value := match value with
             | some v => v
             | none => effective,
    effective := effective,
    tracked := tracked }

/-- Embedding of SecondaryAttribute.update(attr, msg): nothing happens for
a message other than level; for a level message the new effective value is
the base level plus amount * attribute.level over the tracked pairs, a
positive difference is added to the value, and otherwise the value is
clipped down to the new effective level when it exceeds it. -/
def SecondaryAttribute.update (s : SecondaryAttribute)
    (getLevel : PrimaryName → Int) (msg : String) : SecondaryAttribute :=
  if msg ≠ "level" then s
  else
    let new_value :=
      s.base + (s.tracked.map fun p => p.1 * getLevel p.2).sum
    let difference := new_value - s.effective
    let s1 := { s with effective := new_value }
    if difference > 0 then { s1 with value := s1.value + difference }
    else if s1.value > s1.effective then { s1 with value := s1.effective }
    else s1

/-- The level property getter of SecondaryAttribute returns the effective
level. -/
def SecondaryAttribute.level (s : SecondaryAttribute) : Int :=
  s.effective

/-- Embedding of the AttributeList state: the eight primary attributes and
the three secondary attributes health, mana and stamina. -/
structure AttributeList where
  strength : Attribute
  dexterity : Attribute
  agility : Attribute
  constitution : Attribute
  intelligence : Attribute
  wisdom : Attribute
  charisma : Attribute
  luck : Attribute
  health : SecondaryAttribute
  mana : SecondaryAttribute
  stamina : SecondaryAttribute
deriving DecidableEq, Repr

/-- Read a primary attribute of an AttributeList by name. -/
def AttributeList.primary (al : AttributeList) : PrimaryName → Attribute
  | .strength => al.strength
  | .dexterity => al.dexterity
  | .agility => al.agility
  | .constitution => al.constitution
  | .intelligence => al.intelligence
  | .wisdom => al.wisdom
  | .charisma => al.charisma
  | .luck => al.luck

/-- Write a primary attribute of an AttributeList by name. -/
def AttributeList.setPrimary (al : AttributeList) (p : PrimaryName)
    (a : Attribute) : AttributeList :=
  match p with
  | .strength => { al with strength := a }
  | .dexterity => { al with dexterity := a }
  | .agility => { al with agility := a }
  | .constitution => { al with constitution := a }
  | .intelligence => { al with intelligence := a }
  | .wisdom => { al with wisdom := a }
  | .charisma => { al with charisma := a }
  | .luck => { al with luck := a }

/-- The three secondary attributes of an AttributeList, used to name the
listeners registered on the primary attributes. -/
inductive SecondaryName where
  | health
  | mana
  | stamina
deriving DecidableEq, Repr

instance : Fintype SecondaryName :=
  Fintype.ofList [.health, .mana, .stamina] (by intro x; cases x <;> decide)

/-- Read a secondary attribute of an AttributeList by name. -/
def AttributeList.secondary (al : AttributeList) :
    SecondaryName → SecondaryAttribute
  | .health => al.health
  | .mana => al.mana
  | .stamina => al.stamina

/-- Write a secondary attribute of an AttributeList by name. -/
def AttributeList.setSecondary (al : AttributeList) (s : SecondaryName)
    (v : SecondaryAttribute) : AttributeList :=
  match s with
  | .health => { al with health := v }
  | .mana => { al with mana := v }
  | .stamina => { al with stamina := v }

/-- The tracked pairs wired by AttributeList.__init__: health tracks
3 * strength + 7 * constitution, mana tracks 3 * wisdom +
7 * intelligence, stamina tracks 6 * constitution + 4 * agility. -/
def AttributeList.wiring : SecondaryName → List (Int × PrimaryName)
  | .health => [(3, .strength), (7, .constitution)]
  | .mana => [(3, .wisdom), (7, .intelligence)]
  | .stamina => [(6, .constitution), (4, .agility)]

/-- The listener lists produced by the attribute.add(self) registrations of
AttributeList.__init__: a primary attribute notifies, in registration
order, exactly the secondary attributes which track it. -/
def AttributeList.listeners : PrimaryName → List SecondaryName
  | .strength => [.health]
  | .constitution => [.health, .stamina]
  | .wisdom => [.mana]
  | .intelligence => [.mana]
  | .agility => [.stamina]
  | _ => []

/-- Embedding of AttributeList.__init__: eight primary attributes with the
default level 10 (value None, hence 10), then the three secondary
attributes with the default base level 0 and the wiring above, each
computing its initial effective level from the already-built primaries. -/
def AttributeList.init : AttributeList :=
  let p : Attribute := Attribute.make 10 none
  let getLevel : PrimaryName → Int := fun _ => p.level
  { strength := p, dexterity := p, agility := p, constitution := p,
    intelligence := p, wisdom := p, charisma := p, luck := p,
    health :=
      SecondaryAttribute.make 0 none (AttributeList.wiring .health) getLevel,
    mana :=
      SecondaryAttribute.make 0 none (AttributeList.wiring .mana) getLevel,
    stamina :=
      SecondaryAttribute.make 0 none (AttributeList.wiring .stamina)
        getLevel }

/-- Embedding of PrimaryAttribute.notify(msg): run
SecondaryAttribute.update on each listener of the primary, in registration
order, each reading the current primary levels. -/
def AttributeList.notify (al : AttributeList) (p : PrimaryName)
    (msg : String) : AttributeList :=
  (AttributeList.listeners p).foldl
    (fun acc s =>
      acc.setSecondary s
        ((acc.secondary s).update (fun q => (acc.primary q).level) msg))
    al

/-- Embedding of PrimaryAttribute.set_level on a primary of an
AttributeList: run Attribute.set_level on the primary, then notify its
listeners with the level message. -/
def AttributeList.setPrimaryLevel (al : AttributeList) (p : PrimaryName)
    (new_value : Int) : AttributeList :=
  ((al.setPrimary p ((al.primary p).set_level new_value)).notify p "level")

/-- Embedding of PrimaryAttribute.set_value on a primary of an
AttributeList: run Attribute.set_value on the primary, then notify its
listeners with the value message. -/
def AttributeList.setPrimaryValue (al : AttributeList) (p : PrimaryName)
    (new_value : Int) : AttributeList :=
  ((al.setPrimary p ((al.primary p).set_value new_value)).notify p "value")

/-- One primary-attribute mutation of an AttributeList: a level change or
a value change of a named primary attribute. -/
inductive PrimaryOp where
  | setLevel (p : PrimaryName) (n : Int)
  | setValue (p : PrimaryName) (n : Int)
deriving DecidableEq, Repr

/-- Apply one primary-attribute mutation. -/
def AttributeList.applyOp (al : AttributeList) : PrimaryOp → AttributeList
  | .setLevel p n => al.setPrimaryLevel p n
  | .setValue p n => al.setPrimaryValue p n

/-- Apply a sequence of primary-attribute mutations in order. -/
def AttributeList.applyOps (al : AttributeList) (ops : List PrimaryOp) :
    AttributeList :=
  ops.foldl AttributeList.applyOp al

/-- The derived-stat equality of a secondary attribute of an
AttributeList: its effective level equals its base level plus the sum of
amount * primary level over its tracked pairs. -/
def AttributeList.secondaryConsistent (al : AttributeList)
    (s : SecondaryName) : Prop :=
  (al.secondary s).level =
    (al.secondary s).base +
      ((al.secondary s).tracked.map
        fun p => p.1 * (al.primary p.2).level).sum

/-- The observer wiring of an AttributeList is the one set up by
AttributeList.__init__ (it is never mutated afterwards). -/
def AttributeList.wired (al : AttributeList) : Prop :=
  ∀ s : SecondaryName, (al.secondary s).tracked = AttributeList.wiring s

instance (al : AttributeList) (s : SecondaryName) :
    Decidable (al.secondaryConsistent s) := by
  unfold AttributeList.secondaryConsistent
  infer_instance

instance (al : AttributeList) : Decidable al.wired := by
  unfold AttributeList.wired
  infer_instance

/- ## The game state machine: src/rpg/state.py -/

/-- Embedding of the GameState enum (Stopped = 0, Location = 1,
Dialog = 2, Fight = 3). -/
inductive GameState where
  | Stopped
  | Location
  | Dialog
  | Fight
deriving DecidableEq, Repr

/-- The view currently on top of the view stack, as GameData sees it
through self._game_object.stack.current(): only its is_game_view flag
matters to the state machine.  The embedded GameData states are those in
which the stack is non-empty (as they are whenever the game runs; a
current() of None would itself raise inside GameData._display). -/
structure CurView where
  is_game_view : Bool
deriving DecidableEq, Repr

/-- An observable effect of a GameData method: a logged error, a display
dispatch of a resource to the game view, or a fight_start dispatch. -/
inductive GameEvent where
  | logError (msg : String)
  | display (r : Resource)
  | fightStart (m : Option Resource)
deriving DecidableEq, Repr

/-- Embedding of the GameData fields the state machine touches: the
_state, the _add_loc_text flag, the current monster, location and dialog,
the resources collection, and the current view of the owning game
object. -/
structure GameData where
  state : GameState
  add_loc_text : Bool
  monster : Option Resource
  location : Option Resource
  dialog : Option Resource
  resources : Resources
  view : CurView

/-- Embedding of GameData._display: when the current view is a game view,
dispatch a display update of the displayable to it. -/
def GameData.displayEvents (gd : GameData) (r : Resource) :
    List GameEvent :=
  if gd.view.is_game_view then [GameEvent.display r] else []

/-- The start hook of a displayable resource: the overridable
Displayable.start(game) callback, which may mutate the game data
arbitrarily and produce events of its own.  The hook of each resource is
supplied as a parameter of the embedding; the default implementation does
nothing. -/
def StartHook : Type :=
  Resource → GameData → GameData × List GameEvent

/-- The default Displayable.start implementation: do absolutely
nothing. -/
def defaultStartHook : StartHook :=
  fun _ gd => (gd, [])

/-- Embedding of GameData.set_location: look the id up among the Location
resources; when absent log an error and change nothing; when found set the
state to Location, store the location, set the _add_loc_text flag, run the
location's start hook, and then display the location only when the state
is still Location and the stored location is still this instance. -/
def GameData.set_location (hooks : StartHook) (gd : GameData)
    (location_id : String) : GameData × List GameEvent :=
  match gd.resources.get ResourceType.Location location_id with
  | none =>
      (gd, [GameEvent.logError ("Could not find location " ++ location_id)])
  | some instanc =>
      let gd1 := { gd with state := GameState.Location,
                           location := some instanc,
                           add_loc_text := true }
      let hooked := hooks instanc gd1
      let gd2 := hooked.1
      if gd2.state = GameState.Location ∧ gd2.location = some instanc then
        (gd2, hooked.2 ++ gd2.displayEvents instanc)
      else
        (gd2, hooked.2)

/-- Embedding of GameData.set_dialog: look the id up among the Dialog
resources; when absent log an error and change nothing; when found set the
state to Dialog, store the dialog, and display it. -/
def GameData.set_dialog (gd : GameData) (dialog_id : String) :
    GameData × List GameEvent :=
  match gd.resources.get ResourceType.Dialog dialog_id with
  | none =>
      (gd, [GameEvent.logError ("Could not find dialog " ++ dialog_id)])
  | some instanc =>
      let gd1 := { gd with state := GameState.Dialog,
                           dialog := some instanc }
      (gd1, gd1.displayEvents instanc)

/-- A Python exception escaping an embedded method. -/
inductive PyExc where
  | attributeError (attr : String)
  | typeError (msg : String)
  | resourceAlreadyDefined (resource_id : String) (name : String)
  | raised (msg : String)
deriving DecidableEq, Repr

/-- Embedding of GameData.set_fight: set the state to Fight, then look the
monster up with self.resources.get(resource.ResourceType.Actor, ...).  The
ResourceType enum of src/rpg/data/resource.py has no member named Actor
(its members are Location, Dialog, Item, Monster, Callback and COUNT), so
the attribute access ResourceType.Actor, embedded through
ResourceType.pyattr, raises AttributeError before the lookup happens. -/
def GameData.set_fight (gd : GameData) (monster_id : String) :
    Except PyExc (GameData × List GameEvent) :=
  let gd1 := { gd with state := GameState.Fight }
  match ResourceType.pyattr "Actor" with
  | none => Except.error (PyExc.attributeError "Actor")
  | some t =>
      let gd2 := { gd1 with monster := gd1.resources.get t monster_id }
      Except.ok
        (gd2,
         if gd2.view.is_game_view then [GameEvent.fightStart gd2.monster]
         else [])

/- ## The view stack: src/rpg/ui/views.py -/

/-- Embedding of a View instance as the ViewManager sees it: its lookup
name and an identity distinguishing distinct instances.  The stack of a
ViewManager is embedded with its top as the list head (Python keeps the
top at the end of the list; the orientation is reversed here so that the
Python operations stack[-1], pop() and append(v) become head, tail and
cons). -/
structure UIView where
  name : String
  ident : Nat
deriving DecidableEq, Repr

/-- An observable effect of a ViewManager operation: a life-cycle callback
on a view, a forced application quit, or a logged error.  The
pack/pack_forget geometry calls are GUI glue and are not modelled. -/
inductive VMEvent where
  | stop (v : UIView)
  | pause (v : UIView)
  | start (v : UIView)
  | resume (v : UIView)
  | quit (code : Int)
  | logError (msg : String)
deriving DecidableEq, Repr

/-- Embedding of the ViewManager state: the view stack (top at head) and
the _views name map. -/
structure ViewManager where
  stack : List UIView
  views : List (String × UIView)
deriving DecidableEq, Repr

/-- Embedding of the _views.get(view_name, None) lookup. -/
def ViewManager.lookupView (vm : ViewManager) (view_name : String) :
    Option UIView :=
  vm.views.lookup view_name

/-- The pop loop of ViewManager.pop: stop and remove the given number of
further views from the top of the stack.  The caller guarantees the count
does not exceed the stack height. -/
def popLoop : Nat → List UIView → List UIView × List VMEvent
  | 0, s => (s, [])
  | _ + 1, [] => ([], [])
  | k + 1, v :: rest =>
      let res := popLoop k rest
      (res.1, VMEvent.stop v :: res.2)

/-- Embedding of ViewManager.pop(num, quit_if_empty): when the stack is
non-empty and num is positive, stop and remove the top view, then stop and
remove max(min(num, n_views) - 1, 0) further views; afterwards quit the
application if the stack emptied and quit_if_empty is set, and otherwise
resume the newly exposed top view.  Any other call changes nothing. -/
def ViewManager.pop (vm : ViewManager) (num : Int) (quit_if_empty : Bool) :
    ViewManager × List VMEvent :=
  let n_views : Int := Int.ofNat vm.stack.length
  if 0 < n_views ∧ 0 < num then
    match vm.stack with
    | [] => (vm, [])
    | top :: rest =>
        let remaining : Nat := (max (min num n_views - 1) 0).toNat
        let looped := popLoop remaining rest
        let evs := VMEvent.stop top :: looped.2
        match looped.1 with
        | [] =>
            ({ vm with stack := [] },
             evs ++ (if quit_if_empty then [VMEvent.quit 0] else []))
        | newTop :: others =>
            ({ vm with stack := newTop :: others },
             evs ++ [VMEvent.resume newTop])
  else (vm, [])

/-- Embedding of ViewManager.push(view_name): when the name is registered,
pause the current top view (if any), push the named view and start it;
otherwise log an error and change nothing. -/
def ViewManager.push (vm : ViewManager) (view_name : String) :
    ViewManager × List VMEvent :=
  match vm.lookupView view_name with
  | some view =>
      ({ vm with stack := view :: vm.stack },
       (match vm.stack with
        | [] => []
        | top :: _ => [VMEvent.pause top]) ++ [VMEvent.start view])
  | none =>
      (vm,
       [VMEvent.logError
         ("ViewManager::push(): Can not push invalid view " ++ view_name)])

/-- Embedding of ViewManager.swap(view_name): when the name is registered,
stop and remove the current top view (if any), push the named view and
start it without resuming anything; otherwise log an error and change
nothing. -/
def ViewManager.swap (vm : ViewManager) (view_name : String) :
    ViewManager × List VMEvent :=
  match vm.lookupView view_name with
  | some view =>
      match vm.stack with
      | [] => ({ vm with stack := [view] }, [VMEvent.start view])
      | top :: rest =>
          ({ vm with stack := view :: rest },
           [VMEvent.stop top, VMEvent.start view])
  | none =>
      (vm,
       [VMEvent.logError
         ("ViewManager::swap(): Can not swap to invalid view " ++
           view_name)])

/- ## The package loader: src/rpg/io/package.py -/

/-- A dynamic Python value, as the package loader meets them in the
special module variables: a string, a list of values, or anything
else. -/
inductive PyVal where
  | str (s : String)
  | list (l : List PyVal)
  | other

mutual

/-- Structural equality of dynamic values, embedding the Python equality
used by the membership test of the Dependencies handling. -/
def PyVal.beq : PyVal → PyVal → Bool
  | .str a, .str b => a == b
  | .list a, .list b => PyVal.beqList a b
  | .other, .other => true
  | _, _ => false

/-- Structural equality of lists of dynamic values. -/
def PyVal.beqList : List PyVal → List PyVal → Bool
  | [], [] => true
  | a :: as0, b :: bs0 => PyVal.beq a b && PyVal.beqList as0 bs0
  | _, _ => false

end

instance : BEq PyVal := ⟨PyVal.beq⟩

/-- Embedding of Python iteration over a dynamic value: a string yields
its characters as one-character strings, a list yields its elements, and
anything else raises TypeError. -/
def PyVal.iter : PyVal → Except PyExc (List PyVal)
  | .str s => Except.ok (s.data.map fun c => PyVal.str (String.mk [c]))
  | .list l => Except.ok l
  | .other => Except.error (PyExc.typeError "object is not iterable")

/-- One exported item of a loaded script module, as dir(module) presents
it to Package._load_file: either a class (with whether it is a subclass of
Resource, and what instantiating it yields - a resource or an exception),
or an already-built object (a Resource instance, or anything else). -/
inductive ModuleItem where
  | cls (isResourceSubclass : Bool) (instantiate : Except PyExc Resource)
  | obj (value : Option Resource)

/-- A successfully imported script module: its optional Author, Version
and Dependencies special variables (dynamic values) and its named exported
items in dir order. -/
structure PyModule where
  author : Option PyVal
  version : Option PyVal
  dependencies : Option PyVal
  items : List (String × ModuleItem)

mutual

/-- A node of the filesystem under a package path: a script file (whose
dynamic import either yields a module or raises), a directory of named
entries, or something which is neither. -/
inductive PathNode where
  | file (content : Except PyExc PyModule) : PathNode
  | dir (entries : PathForest) : PathNode
  | other : PathNode

/-- The named entries of a directory, in os.listdir order. -/
inductive PathForest where
  | nil : PathForest
  | cons (name : String) (node : PathNode) (rest : PathForest) : PathForest

end

/-- The mutable state threaded through Package.load: the package metadata
fields, the managed Resources collection, and the error count of the
PackageContext. -/
structure PackageState where
  author : Option String
  version : Option String
  dependencies : List PyVal
  resources : Resources
  errors : Nat

/-- Embedding of PackageContext.error: log and count one error. -/
def ctxError (st : PackageState) : PackageState :=
  { st with errors := st.errors + 1 }

/-- Embedding of the Author-variable handling of Package._load_file: a
present non-string value is an error, a present string is stored. -/
def processAuthor (st : PackageState) (v : Option PyVal) : PackageState :=
  match v with
  | none => st
  | some (PyVal.str s) => { st with author := some s }
  | some _ => ctxError st

/-- Embedding of the Version-variable handling of Package._load_file: a
present non-string value is an error, a present string is stored. -/
def processVersion (st : PackageState) (v : Option PyVal) : PackageState :=
  match v with
  | none => st
  | some (PyVal.str s) => { st with version := some s }
  | some _ => ctxError st

/-- Embedding of the Dependencies-variable handling of
Package._load_file: iterate the value, appending each element not already
tracked; an exception while iterating is caught and counted. -/
def processDeps (st : PackageState) (v : Option PyVal) : PackageState :=
  match v with
  | none => st
  | some val =>
      match val.iter with
      | Except.ok deps =>
          let newdeps :=
            deps.foldl
              (fun acc dep =>
                if acc.contains dep then acc else acc ++ [dep])
              st.dependencies
          { st with dependencies := newdeps }
      | Except.error _ => ctxError st

/-- The item loop of Package._load_file, threading the package state and
the count of loaded items.  Item names starting with an underscore are
skipped.  A Resource subclass is instantiated and added inside its own
try block, so a failure there is counted and the loop continues; an
already-built Resource instance is added with no inner try block, so a
failure there escapes the loop (to be caught, and counted, by the
surrounding try block of _load_file).  The optional exception of the
result is that escaping exception. -/
def loadItems : List (String × ModuleItem) → PackageState → Nat →
    PackageState × Nat × Option PyExc
  | [], st, count => (st, count, none)
  | (name, item) :: rest, st, count =>
      if startsWithUnderscore name then loadItems rest st count
      else
        match item with
        | ModuleItem.cls isResourceSubclass instantiate =>
            if isResourceSubclass then
              match instantiate with
              | Except.ok r =>
                  let added := st.resources.add r
                  match added.2 with
                  | none =>
                      loadItems rest { st with resources := added.1 }
                        (count + 1)
                  | some _ => loadItems rest (ctxError st) count
              | Except.error _ => loadItems rest (ctxError st) count
            else loadItems rest st count
        | ModuleItem.obj value =>
            match value with
            | some r =>
                let added := st.resources.add r
                match added.2 with
                | none =>
                    loadItems rest { st with resources := added.1 }
                      (count + 1)
                | some e =>
                    (st, count,
                     some (PyExc.resourceAlreadyDefined e.resource_id
                            e.name))
            | none => loadItems rest st count

/-- Embedding of Package._load_file: everything is wrapped in a try block
so that exceptions while loading are reported in the error count.  A
failed import counts one error and loads nothing; otherwise the special
variables are processed and the exported items loaded, and an exception
escaping the item loop is caught and counted.  The count of loaded items
accumulated so far is returned in every case. -/
def loadFile (st : PackageState) (content : Except PyExc PyModule) :
    PackageState × Nat :=
  match content with
  | Except.error _ => (ctxError st, 0)
  | Except.ok m =>
      let st1 := processAuthor st m.author
      let st2 := processVersion st1 m.version
      let st3 := processDeps st2 m.dependencies
      let res := loadItems m.items st3 0
      match res.2.2 with
      | none => (res.1, res.2.1)
      | some _ => (ctxError res.1, res.2.1)

mutual

/-- The per-entry dispatch of Package._load_dir: a file is loaded with
_load_file, a directory is recursed into, and a node which is neither
loads nothing (the caller skips it). -/
def loadNode (st : PackageState) : PathNode → PackageState × Nat
  | PathNode.file content => loadFile st content
  | PathNode.dir entries => loadDirEntries entries st
  | PathNode.other => (st, 0)

/-- Embedding of Package._load_dir: walk the directory entries, skipping
the __pycache__ folder, loading files with _load_file and recursing into
subdirectories, summing the loaded-item counts.  Entries which are
neither files nor directories are skipped. -/
def loadDirEntries : PathForest → PackageState → PackageState × Nat
  | PathForest.nil, st => (st, 0)
  | PathForest.cons name node rest, st =>
      if name = "__pycache__" then loadDirEntries rest st
      else
        match node with
        | PathNode.other => loadDirEntries rest st
        | nd =>
            let r := loadNode st nd
            let r2 := loadDirEntries rest r.1
            (r2.1, r.2 + r2.2)

end

/-- The exceptions Package.load raises itself: PackageNotFoundError for a
path that does not exist, PackageLoadError for a path which is neither a
file nor a directory. -/
inductive PackageLoadExc where
  | packageNotFound
  | packageLoadError (reason : String)
deriving DecidableEq, Repr

/-- Embedding of Package.load: a missing path (none) raises
PackageNotFoundError; a directory is loaded with _load_dir, a file with
_load_file, and anything else raises PackageLoadError.  On success the
result is the new package state and the number of resources loaded. -/
def packageLoad (st : PackageState) (node : Option PathNode) :
    Except PackageLoadExc (PackageState × Nat) :=
  match node with
  | none => Except.error PackageLoadExc.packageNotFound
  | some (PathNode.dir entries) => Except.ok (loadDirEntries entries st)
  | some (PathNode.file content) => Except.ok (loadFile st content)
  | some PathNode.other =>
      Except.error (PackageLoadExc.packageLoadError
        "not a file or directory")

/- ## Concrete test data used by the per-claim witnesses -/

/-- A collection holding one Item under the id potion, used by the C4
witness. -/
def c4rs : Resources :=
  { map := fun t =>
      match t with
      | ResourceType.Item =>
          [("potion", Resource.make ResourceType.Item "potion" 1)]
      | _ => [] }

/-- The resource added by the C4 witness. -/
def c4item : Resource := Resource.make ResourceType.Monster "orc" 2

/-- A three-view manager used by the C8 witness. -/
def c8vm : ViewManager :=
  { stack := [⟨"a", 1⟩, ⟨"b", 2⟩, ⟨"c", 3⟩],
    views := [("a", ⟨"a", 1⟩), ("b", ⟨"b", 2⟩), ("c", ⟨"c", 3⟩)] }

/-- A collection holding one Location and one Dialog, used by the C5
counterexample and witness. -/
def c5res : Resources :=
  { map := fun t =>
      match t with
      | ResourceType.Location =>
          [("loc1", Resource.make ResourceType.Location "loc1" 1)]
      | ResourceType.Dialog =>
          [("d1", Resource.make ResourceType.Dialog "d1" 2)]
      | _ => [] }

/-- A game state whose current view is a game view, used by the C5
counterexample and witness. -/
def c5gd : GameData :=
  { state := GameState.Stopped, add_loc_text := false, monster := none,
    location := none, dialog := none, resources := c5res,
    view := { is_game_view := true } }

/-- A start hook of the kind the Displayable.start documentation
describes: the location's start callback forces the game straight into a
dialog. -/
def c5hooks : StartHook := fun _ gd => gd.set_dialog "d1"

/-- A fresh package state, used by the C6 witness. -/
def c6st : PackageState :=
  { author := none, version := none, dependencies := [],
    resources := Resources.empty, errors := 0 }

/-- A script module exporting one loadable Location class, one Resource
subclass whose constructor raises, one private name and one already-built
Item instance; used by the C6 witness. -/
def c6module : PyModule :=
  { author := some (PyVal.str "me"),
    version := none,
    dependencies := some (PyVal.list [PyVal.str "base"]),
    items :=
      [("GoodLoc",
        ModuleItem.cls true
          (Except.ok (Resource.make ResourceType.Location "loc" 1))),
       ("BadCls", ModuleItem.cls true (Except.error (PyExc.raised "boom"))),
       ("_private", ModuleItem.obj none),
       ("inst",
        ModuleItem.obj (some (Resource.make ResourceType.Item "sword" 2)))] }

/-- A package directory with one good script, a compiled-cache folder and
one script whose import raises; used by the C6 witness. -/
def c6entries : PathForest :=
  PathForest.cons "mod.py" (PathNode.file (Except.ok c6module))
    (PathForest.cons "__pycache__" PathNode.other
      (PathForest.cons "broken.py"
        (PathNode.file (Except.error (PyExc.raised "syntax")))
        PathForest.nil))

/-- The C6 witness package path: the directory above. -/
def c6node : PathNode := PathNode.dir c6entries

/-- The resource stored under town by the master package base, used by
the C1 witness. -/
def c1ATown : Resource :=
  { type_id := ResourceType.Location, resource_id := "town",
    package := some "base", payload := 1 }

/-- The resource stored under cave by the non-master package modA, used
by the C1 witness. -/
def c1ACave : Resource :=
  { type_id := ResourceType.Location, resource_id := "cave",
    package := some "modA", payload := 2 }

/-- The merging collection for the C1 witness. -/
def c1A : Resources :=
  { map := fun t =>
      match t with
      | ResourceType.Location => [("town", c1ATown), ("cave", c1ACave)]
      | _ => [] }

/-- The replacement resource for town offered by the merged package. -/
def c1BTown : Resource :=
  { type_id := ResourceType.Location, resource_id := "town",
    package := some "modB", payload := 3 }

/-- The conflicting replacement resource for cave offered by the merged
package. -/
def c1BCave : Resource :=
  { type_id := ResourceType.Location, resource_id := "cave",
    package := some "modB", payload := 4 }

/-- A brand-new resource offered by the merged package. -/
def c1BKeep : Resource :=
  { type_id := ResourceType.Location, resource_id := "keep",
    package := some "modB", payload := 5 }

/-- The merged-in collection for the C1 witness: one replaceable id, one
conflicting id and one new id. -/
def c1B : Resources :=
  { map := fun t =>
      match t with
      | ResourceType.Location =>
          [("town", c1BTown), ("cave", c1BCave), ("keep", c1BKeep)]
      | _ => [] }

/- ## Helper lemmas -/

/-- A string whose first character is not whitespace strips to a
non-empty string. -/
theorem pyStrip_ne_empty (c : Char) (l : List Char) (s : String)
    (hdata : s.data = c :: l) (hc : c.isWhitespace = false) :
    pyStrip s ≠ "" := by
  intro h
  have hdrop : s.data.dropWhile Char.isWhitespace = c :: l := by
    rw [hdata, List.dropWhile_cons, hc]
    simp
  have hempty : ((s.data.dropWhile Char.isWhitespace).reverse.dropWhile
      Char.isWhitespace).reverse = [] := congrArg String.data h
  rw [List.reverse_eq_nil_iff, List.dropWhile_eq_nil_iff] at hempty
  have hcmem : c ∈ (s.data.dropWhile Char.isWhitespace).reverse := by
    rw [hdrop]
    simp
  have := hempty c hcmem
  rw [hc] at this
  exact Bool.noConfusion this

theorem dictGet_dictSet_same (m : List (String × Resource)) (k : String)
    (v : Resource) : dictGet (dictSet m k v) k = some v := by
  induction m with
  | nil => simp [dictSet, dictGet]
  | cons hd tl ih =>
      obtain ⟨k0, v0⟩ := hd
      by_cases h : k0 = k
      · simp [dictSet, h, dictGet]
      · simp [dictSet, h, dictGet, ih]

theorem dictGet_dictSet_ne (m : List (String × Resource)) (k k0 : String)
    (v : Resource) (h : k ≠ k0) :
    dictGet (dictSet m k v) k0 = dictGet m k0 := by
  induction m with
  | nil => simp [dictSet, dictGet, h]
  | cons hd tl ih =>
      obtain ⟨k1, v1⟩ := hd
      by_cases h1 : k1 = k
      · subst h1
        simp [dictSet, dictGet, h]
      · simp [dictSet, h1, dictGet, ih]

theorem dictGet_eq_none_iff (m : List (String × Resource)) (k : String) :
    dictGet m k = none ↔ k ∉ m.map Prod.fst := by
  induction m with
  | nil => simp [dictGet]
  | cons hd tl ih =>
      obtain ⟨k0, v0⟩ := hd
      by_cases h : k0 = k
      · simp [dictGet, h]
      · simp [dictGet, h, ih, Ne.symm h]

theorem dictSet_of_not_contains (m : List (String × Resource)) (k : String)
    (v : Resource) (h : dictContains m k = false) :
    dictSet m k v = m ++ [(k, v)] := by
  induction m with
  | nil => simp [dictSet]
  | cons hd tl ih =>
      obtain ⟨k0, v0⟩ := hd
      by_cases h0 : k0 = k
      · simp [dictContains, dictGet, h0] at h
      · simp [dictContains, dictGet, h0] at h
        have h2 : dictContains tl k = false := by
          simp [dictContains, h]
        simp [dictSet, h0, ih h2]

theorem dictSet_length_of_not_contains (m : List (String × Resource))
    (k : String) (v : Resource) (h : dictContains m k = false) :
    (dictSet m k v).length = m.length + 1 := by
  rw [dictSet_of_not_contains m k v h]
  simp

/- ## Claim C4: Resources.add and Resources.get -/

/-- Claim C4: adding a resource whose resource_id is already present among
resources of the same type raises ResourceAlreadyDefinedError and leaves
the collection unchanged (the old resource is still returned by get);
adding a resource whose resource_id is not present among resources of its
type succeeds, after which get returns exactly that resource (and every
other lookup is unchanged).  Ids stay unique per type: well-formedness is
preserved, so get never has to choose between two stored resources. -/
theorem C4_add_get (rs : Resources) (item : Resource) (hWF : rs.WF) :
    (∀ old, rs.get item.type_id item.resource_id = some old →
       (rs.add item).2 =
         some { resource_id := item.resource_id,
                name := item.type_id.name } ∧
       (rs.add item).1 = rs ∧
       (rs.add item).1.get item.type_id item.resource_id = some old) ∧
    (rs.get item.type_id item.resource_id = none →
       (rs.add item).2 = none ∧
       (rs.add item).1.get item.type_id item.resource_id = some item ∧
       (∀ t k, (t ≠ item.type_id ∨ k ≠ item.resource_id) →
          (rs.add item).1.get t k = rs.get t k) ∧
       (rs.add item).1.WF) := by
  constructor
  · intro old hold
    have hc : dictContains (rs.map item.type_id) item.resource_id = true := by
      simp [dictContains, Resources.get] at hold ⊢
      simp [hold]
    simp [Resources.add, hc, hold]
  · intro hnone
    have hc : dictContains (rs.map item.type_id) item.resource_id = false := by
      simp [dictContains, Resources.get] at hnone ⊢
      simp [hnone]
    refine ⟨by simp [Resources.add, hc], ?_, ?_, ?_⟩
    · simp [Resources.add, hc, Resources.get, dictGet_dictSet_same]
    · intro t k hne
      by_cases ht : t = item.type_id
      · subst ht
        have hk : k ≠ item.resource_id := by
          rcases hne with h | h
          · exact absurd rfl h
          · exact h
        simp [Resources.add, hc, Resources.get,
          dictGet_dictSet_ne _ _ _ _ (Ne.symm hk)]
      · simp [Resources.add, hc, Resources.get, ht]
    · have hkey : item.resource_id ∉ (rs.map item.type_id).map Prod.fst :=
        (dictGet_eq_none_iff _ _).mp hnone
      have hmap : ∀ t, ((rs.add item).1.map t) =
          if t = item.type_id then
            (rs.map item.type_id) ++ [(item.resource_id, item)]
          else rs.map t := by
        intro t
        simp [Resources.add, hc, dictSet_of_not_contains _ _ _ hc]
      intro t
      by_cases ht : t = item.type_id
      · rw [hmap, if_pos ht, ht]
        constructor
        · rw [List.map_append, List.nodup_append]
          refine ⟨(hWF item.type_id).1, List.nodup_singleton _, ?_⟩
          intro a ha hb
          simp at hb
          subst hb
          exact hkey ha
        · intro p hp
          rcases List.mem_append.mp hp with hp | hp
          · exact (hWF item.type_id).2 p hp
          · simp at hp
            subst hp
            exact ⟨rfl, rfl⟩
      · rw [hmap, if_neg ht]
        exact hWF t

/-- Witness for C4 at concrete inputs: a collection holding one Item under
the id potion already; adding a Monster named orc succeeds and is then
returned by get, while the stored Item is found unchanged. -/
theorem C4_add_get_witness :
    (c4rs.add c4item).2 = none ∧
    (c4rs.add c4item).1.get ResourceType.Monster "orc" = some c4item ∧
    (c4rs.add c4item).1.get ResourceType.Item "potion" =
      c4rs.get ResourceType.Item "potion" := by
  have h := (C4_add_get c4rs c4item (by decide)).2 (by decide)
  exact ⟨h.1, h.2.1, h.2.2.1 ResourceType.Item "potion" (Or.inl (by decide))⟩

/- ## Claim C9: Attribute.set_level -/

/-- Counterexample for C9 as stated: it quantifies over every Attribute,
but Attribute.set_level only bounds a negative difference by the negated
current level, so from the level -5 a call with -3 yields the level -3,
not max(-3, 0) = 0. -/
theorem C9_counterexample :
    ((Attribute.make (-5) none).set_level (-3)).level ≠ max (-3 : Int) 0 := by
  decide

/-- Claim C9 (amended): for every Attribute whose level is nonnegative (as
it is for every attribute the program constructs), set_level(n) sets the
level to max(n, 0) and changes the value by exactly the same amount as
the level, so the offset value - level is preserved. -/
theorem C9_set_level (a : Attribute) (n : Int) (h : 0 ≤ a.level) :
    (a.set_level n).level = max n 0 ∧
    (a.set_level n).value - (a.set_level n).level = a.value - a.level := by
  simp only [Attribute.set_level]
  constructor
  · rcases le_or_lt a.level n with hle | hlt
    · rw [if_neg (by omega)]
      omega
    · rw [if_pos (by omega)]
      rcases le_or_lt 0 n with h0 | h0
      · rw [max_eq_right (by omega), max_eq_left h0]
        omega
      · rw [max_eq_left (by omega), max_eq_right (by omega)]
        omega
  · split <;> omega

/-- Witness for C9 at a concrete input: the attribute 10/12 lowered far
below zero clamps its level at 0 and keeps its +2 value offset. -/
theorem C9_set_level_witness :
    ((Attribute.mk 10 12).set_level (-100)).level = max (-100 : Int) 0 ∧
    ((Attribute.mk 10 12).set_level (-100)).value -
      ((Attribute.mk 10 12).set_level (-100)).level = 12 - 10 :=
  C9_set_level (Attribute.mk 10 12) (-100) (by decide)

/- ## Claim C10: AttributeList initial wiring -/

/-- Claim C10: a freshly constructed AttributeList wires health to
3 * strength + 7 * constitution, mana to 3 * wisdom + 7 * intelligence
and stamina to 6 * constitution + 4 * agility, each with base level 0, so
with the default primary level of 10 each of health, mana and stamina
starts with effective level 100 and value 100. -/
theorem C10_attribute_list_init :
    AttributeList.init.health.tracked = [(3, .strength), (7, .constitution)] ∧
    AttributeList.init.mana.tracked = [(3, .wisdom), (7, .intelligence)] ∧
    AttributeList.init.stamina.tracked = [(6, .constitution), (4, .agility)] ∧
    (∀ s : SecondaryName, (AttributeList.init.secondary s).base = 0) ∧
    (∀ p : PrimaryName, (AttributeList.init.primary p).level = 10 ∧
       (AttributeList.init.primary p).value = 10) ∧
    (∀ s : SecondaryName, (AttributeList.init.secondary s).level = 100 ∧
       (AttributeList.init.secondary s).value = 100) := by
  decide

/- ## Claim C7: the ResourceType enum -/

/-- Counterexample for C7 as stated: the ResourceType enum of
src/rpg/data/resource.py has no member named Actor and none named Recipe
(its tag members are Location, Dialog, Item, Monster and Callback). -/
theorem C7_counterexample :
    "Actor" ∉ ResourceType.memberNames ∧
    "Recipe" ∉ ResourceType.memberNames := by
  decide

/-- Claim C7 (amended): the resource type enum used to key the per-type
resource maps consists of exactly the tags Location = 0, Dialog = 1,
Item = 2, Monster = 3 and Callback = 4, plus the sentinel member
COUNT = 5 which sizes the map list; and every Resource carries one of
these tags together with its string id, as stored by Resource.__init__. -/
theorem C7_resource_type_tags :
    ResourceType.tagMembers.map (fun p => (p.1, p.2.value)) =
      [("Location", 0), ("Dialog", 1), ("Item", 2), ("Monster", 3),
       ("Callback", 4)] ∧
    ResourceType.memberNames =
      ["Location", "Dialog", "Item", "Monster", "Callback", "COUNT"] ∧
    ResourceType.COUNT = 5 ∧
    (∀ r : Resource, r.type_id ∈ ResourceType.all) ∧
    (∀ t id payload, (Resource.make t id payload).type_id = t ∧
       (Resource.make t id payload).resource_id = id) := by
  refine ⟨by decide, by decide, rfl, ?_, ?_⟩
  · intro r
    cases r.type_id <;> decide
  · intro t id payload
    exact ⟨rfl, rfl⟩

/- ## Claim C3: GameData.set_fight -/

/-- The attribute access ResourceType.Actor fails: Actor is not a member
of the enum. -/
theorem pyattr_Actor : ResourceType.pyattr "Actor" = none := by
  decide

/-- Claim C3 concerns a code bug: set_fight does set the state to Fight,
but its monster lookup reads resource.ResourceType.Actor, a member the
ResourceType enum does not have, so every call raises AttributeError
instead of completing. -/
theorem C3_set_fight_raises (gd : GameData) (monster_id : String) :
    gd.set_fight monster_id =
      Except.error (PyExc.attributeError "Actor") := by
  simp [GameData.set_fight, pyattr_Actor]

/- ## Claim C2: the observer invariant of the attribute system -/

theorem update_value_msg (s : SecondaryAttribute)
    (g : PrimaryName → Int) : s.update g "value" = s := by
  simp [SecondaryAttribute.update]

theorem update_tracked (s : SecondaryAttribute) (g : PrimaryName → Int)
    (msg : String) : (s.update g msg).tracked = s.tracked := by
  simp only [SecondaryAttribute.update]
  split
  · rfl
  · split
    · rfl
    · split <;> rfl

theorem update_base (s : SecondaryAttribute) (g : PrimaryName → Int)
    (msg : String) : (s.update g msg).base = s.base := by
  simp only [SecondaryAttribute.update]
  split
  · rfl
  · split
    · rfl
    · split <;> rfl

theorem update_level_effective (s : SecondaryAttribute)
    (g : PrimaryName → Int) :
    (s.update g "level").effective =
      s.base + (s.tracked.map fun p => p.1 * g p.2).sum := by
  simp only [SecondaryAttribute.update]
  rw [if_neg (by simp)]
  split
  · rfl
  · split <;> rfl

theorem setSecondary_self (al : AttributeList) (s : SecondaryName) :
    al.setSecondary s (al.secondary s) = al := by
  cases s <;> rfl

theorem secondary_setSecondary (al : AttributeList)
    (v : SecondaryAttribute) (s s0 : SecondaryName) :
    (al.setSecondary s v).secondary s0 =
      if s0 = s then v else al.secondary s0 := by
  cases s <;> cases s0 <;>
    simp [AttributeList.setSecondary, AttributeList.secondary]

theorem primary_setSecondary (al : AttributeList)
    (v : SecondaryAttribute) (s : SecondaryName) (q : PrimaryName) :
    (al.setSecondary s v).primary q = al.primary q := by
  cases s <;> cases q <;> rfl

theorem secondary_setPrimary (al : AttributeList) (a : Attribute)
    (p : PrimaryName) (s : SecondaryName) :
    (al.setPrimary p a).secondary s = al.secondary s := by
  cases p <;> cases s <;> rfl

theorem primary_setPrimary (al : AttributeList) (a : Attribute)
    (p q : PrimaryName) :
    (al.setPrimary p a).primary q = if q = p then a else al.primary q := by
  cases p <;> cases q <;>
    simp [AttributeList.setPrimary, AttributeList.primary]

theorem notify_value (al : AttributeList) (p : PrimaryName) :
    al.notify p "value" = al := by
  cases p <;>
    simp [AttributeList.notify, AttributeList.listeners, List.foldl,
      update_value_msg, setSecondary_self]

theorem notify_level_primary (al : AttributeList) (p : PrimaryName)
    (q : PrimaryName) :
    (al.notify p "level").primary q = al.primary q := by
  cases p <;>
    simp [AttributeList.notify, AttributeList.listeners, List.foldl,
      primary_setSecondary]

theorem notify_level_secondary (al : AttributeList) (p : PrimaryName)
    (s : SecondaryName) :
    (al.notify p "level").secondary s =
      if s ∈ AttributeList.listeners p then
        (al.secondary s).update (fun q => (al.primary q).level) "level"
      else al.secondary s := by
  cases p <;> cases s <;>
    simp [AttributeList.notify, AttributeList.listeners, List.foldl,
      secondary_setSecondary, primary_setSecondary]

/-- A secondary attribute which is not a listener of a primary does not
track it. -/
theorem wiring_listeners :
    ∀ (p : PrimaryName) (s : SecondaryName),
      s ∉ AttributeList.listeners p →
      ∀ pr ∈ AttributeList.wiring s, pr.2 ≠ p := by
  decide

theorem invFull_applyOp (al : AttributeList) (op : PrimaryOp)
    (hw : al.wired) (hc : ∀ s, al.secondaryConsistent s) :
    (al.applyOp op).wired ∧ ∀ s, (al.applyOp op).secondaryConsistent s := by
  cases op with
  | setValue p n =>
      have heq : al.applyOp (PrimaryOp.setValue p n) =
          al.setPrimary p ((al.primary p).set_value n) := by
        simp [AttributeList.applyOp, AttributeList.setPrimaryValue,
          notify_value]
      rw [heq]
      have hlev : ∀ q,
          ((al.setPrimary p ((al.primary p).set_value n)).primary q).level =
            (al.primary q).level := by
        intro q
        rw [primary_setPrimary]
        by_cases hq : q = p
        · rw [if_pos hq, hq]
          rfl
        · rw [if_neg hq]
      constructor
      · intro s
        rw [secondary_setPrimary]
        exact hw s
      · intro s
        unfold AttributeList.secondaryConsistent at hc ⊢
        rw [secondary_setPrimary]
        simp only [hlev]
        exact hc s
  | setLevel p n =>
      have heq : al.applyOp (PrimaryOp.setLevel p n) =
          (al.setPrimary p ((al.primary p).set_level n)).notify p "level" :=
        rfl
      rw [heq]
      set al1 := al.setPrimary p ((al.primary p).set_level n) with hal1
      have hsec1 : ∀ s, al1.secondary s = al.secondary s := fun s =>
        secondary_setPrimary al _ p s
      constructor
      · intro s
        rw [notify_level_secondary]
        by_cases hmem : s ∈ AttributeList.listeners p
        · rw [if_pos hmem, update_tracked, hsec1]
          exact hw s
        · rw [if_neg hmem, hsec1]
          exact hw s
      · intro s
        unfold AttributeList.secondaryConsistent
        simp only [notify_level_primary, notify_level_secondary]
        by_cases hmem : s ∈ AttributeList.listeners p
        · rw [if_pos hmem]
          unfold SecondaryAttribute.level
          rw [update_level_effective, update_base, update_tracked, hsec1]
        · rw [if_neg hmem, hsec1]
          have hq : ∀ pr ∈ (al.secondary s).tracked,
              (al1.primary pr.2).level = (al.primary pr.2).level := by
            intro pr hpr
            have hne : pr.2 ≠ p := by
              apply wiring_listeners p s hmem
              rw [← hw s]
              exact hpr
            rw [hal1, primary_setPrimary, if_neg hne]
          have hmap : ((al.secondary s).tracked.map
                fun pr => pr.1 * (al1.primary pr.2).level) =
              ((al.secondary s).tracked.map
                fun pr => pr.1 * (al.primary pr.2).level) :=
            List.map_congr_left fun pr hpr => by rw [hq pr hpr]
          rw [hmap]
          exact hc s

theorem invFull_applyOps (ops : List PrimaryOp) (al : AttributeList)
    (hw : al.wired) (hc : ∀ s, al.secondaryConsistent s) :
    (al.applyOps ops).wired ∧
      ∀ s, (al.applyOps ops).secondaryConsistent s := by
  induction ops generalizing al with
  | nil => exact ⟨hw, hc⟩
  | cons op rest ih =>
      have h1 := invFull_applyOp al op hw hc
      have h2 := ih (al.applyOp op) h1.1 h1.2
      simpa [AttributeList.applyOps, List.foldl] using h2

/-- Claim C2: after every sequence of primary-attribute level and value
changes applied to a fresh AttributeList, each secondary attribute
(health, mana, stamina) has an effective level equal to its own base
level plus the sum over its tracked pairs of weight times the tracked
primary attribute's level: every level change notifies exactly the
secondary attributes tracking the changed primary, and their update
recomputes this equality. -/
theorem C2_derived_stats (ops : List PrimaryOp) (s : SecondaryName) :
    (AttributeList.init.applyOps ops).secondaryConsistent s :=
  (invFull_applyOps ops AttributeList.init (by decide) (by decide)).2 s

/- ## Claim C8: the view stack -/

theorem popLoop_spec (k : Nat) (s : List UIView) (h : k ≤ s.length) :
    popLoop k s = (s.drop k, (s.take k).map VMEvent.stop) := by
  induction k generalizing s with
  | zero => simp [popLoop]
  | succ k ih =>
      cases s with
      | nil => simp at h
      | cons v rest =>
          simp only [List.length_cons, Nat.succ_le_succ_iff] at h
          simp [popLoop, ih rest h]

/-- Claim C8: with a non-empty stack and positive num, pop removes exactly
the top min(num, n) views, stopping each removed view in top-down order;
afterwards the newly exposed top view is resumed when the stack is
non-empty, and the application quit is invoked exactly when the stack
emptied and quit_if_empty is set.  pop on an empty stack or with a
non-positive num changes nothing, and push and swap with an unregistered
name change nothing but a logged error. -/
theorem C8_view_stack (vm : ViewManager) (num : Int) (q : Bool)
    (name : String) :
    (0 < num → 0 < vm.stack.length →
       vm.pop num q =
         ({ vm with stack :=
              vm.stack.drop (min num.toNat vm.stack.length) },
          (vm.stack.take (min num.toNat vm.stack.length)).map VMEvent.stop
            ++ (match vm.stack.drop (min num.toNat vm.stack.length) with
                | [] => if q then [VMEvent.quit 0] else []
                | newTop :: _ => [VMEvent.resume newTop]))) ∧
    (num ≤ 0 ∨ vm.stack = [] → vm.pop num q = (vm, [])) ∧
    (vm.lookupView name = none →
       vm.push name =
         (vm, [VMEvent.logError
            ("ViewManager::push(): Can not push invalid view " ++ name)]) ∧
       vm.swap name =
         (vm, [VMEvent.logError
            ("ViewManager::swap(): Can not swap to invalid view " ++
              name)])) := by
  refine ⟨?_, ?_, ?_⟩
  · intro hnum hlen
    rcases hstack : vm.stack with _ | ⟨top, rest⟩
    · rw [hstack] at hlen
      simp at hlen
    · have hrem : (max (min num (Int.ofNat (top :: rest).length) - 1)
          0).toNat = min num.toNat (top :: rest).length - 1 := by
        simp only [List.length_cons, Int.ofNat_eq_coe]
        omega
      have hk1 : 1 ≤ min num.toNat (top :: rest).length := by
        simp only [List.length_cons]
        omega
      have hkr : min num.toNat (top :: rest).length - 1 ≤ rest.length := by
        simp only [List.length_cons]
        omega
      have hguard : 0 < Int.ofNat (top :: rest).length ∧ 0 < num :=
        ⟨by simp, hnum⟩
      have hdrop : rest.drop (min num.toNat (top :: rest).length - 1) =
          (top :: rest).drop (min num.toNat (top :: rest).length) := by
        conv_rhs => rw [← Nat.succ_pred_eq_of_pos (by omega :
          0 < min num.toNat (top :: rest).length)]
        rfl
      have htake : (top :: rest).take (min num.toNat (top :: rest).length)
          = top :: rest.take (min num.toNat (top :: rest).length - 1) := by
        conv_lhs => rw [← Nat.succ_pred_eq_of_pos (by omega :
          0 < min num.toNat (top :: rest).length)]
        rfl
      simp only [ViewManager.pop, hstack, if_pos hguard, hrem,
        popLoop_spec _ rest hkr, hdrop, htake, List.map_cons]
      rcases hres : (top :: rest).drop (min num.toNat
          (top :: rest).length) with _ | ⟨newTop, others⟩ <;> simp [hres]
  · intro h
    rcases h with h | h
    · have : ¬ (0 < Int.ofNat vm.stack.length ∧ 0 < num) := by
        intro hx
        omega
      simp only [ViewManager.pop, if_neg this]
    · have : ¬ (0 < Int.ofNat vm.stack.length ∧ 0 < num) := by
        rw [h]
        intro hx
        simp at hx
      simp only [ViewManager.pop, if_neg this]
  · intro h
    constructor
    · simp [ViewManager.push, h]
    · simp [ViewManager.swap, h]

/-- Witness for C8 at concrete inputs: a three-view stack popped with
num = 2 stops the top two views and resumes the third; popping zero views
and pushing or swapping an unknown name change nothing. -/
theorem C8_view_stack_witness :
    c8vm.pop 2 true =
      ({ c8vm with stack := [⟨"c", 3⟩] },
       [VMEvent.stop ⟨"a", 1⟩, VMEvent.stop ⟨"b", 2⟩,
        VMEvent.resume ⟨"c", 3⟩]) ∧
    c8vm.pop 0 true = (c8vm, []) ∧
    c8vm.push "zz" =
      (c8vm, [VMEvent.logError
        "ViewManager::push(): Can not push invalid view zz"]) := by
  have h := C8_view_stack c8vm 2 true "zz"
  have h0 := C8_view_stack c8vm 0 true "zz"
  refine ⟨?_, ?_, ?_⟩
  · have h1 := h.1 (by decide) (by decide)
    simpa using h1
  · exact h0.2.1 (Or.inl (by decide))
  · exact (h.2.2 (by decide)).1

/- ## Claim C5: GameData.set_location and GameData.set_dialog -/

/-- Counterexample for C5 as stated: set_location runs the found
location's start hook before displaying, and the hook may itself change
the game state (exactly the situation the Displayable.start documentation
describes and the source guards against).  With a location whose start
hook enters a loaded dialog, the state after a successful set_location is
Dialog, not Location, and no display update for the location is
dispatched. -/
theorem C5_counterexample :
    (GameData.set_location c5hooks c5gd "loc1").1.state ≠
      GameState.Location ∧
    GameEvent.display (Resource.make ResourceType.Location "loc1" 1) ∉
      (GameData.set_location c5hooks c5gd "loc1").2 := by
  decide

/-- Claim C5 (amended): set_location (respectively set_dialog) with an id
naming no loaded Location (Dialog) resource logs an error and changes
nothing; set_dialog with a found id sets the state to Dialog, stores the
dialog and dispatches its display update to the active view when it is a
game view; set_location with a found id does the same with state Location
and the _add_loc_text flag provided the location's start hook leaves the
game data unchanged (as the default hook does) - otherwise the display is
dispatched only if the hook kept the state at Location and the location
at this instance. -/
theorem C5_set_location_dialog (hooks : StartHook) (gd : GameData)
    (lid did : String) :
    (gd.resources.get ResourceType.Location lid = none →
       GameData.set_location hooks gd lid =
         (gd, [GameEvent.logError ("Could not find location " ++ lid)])) ∧
    (∀ inst, gd.resources.get ResourceType.Location lid = some inst →
       (∀ g, hooks inst g = (g, [])) →
       GameData.set_location hooks gd lid =
         ({ gd with state := GameState.Location, location := some inst,
                    add_loc_text := true },
          if gd.view.is_game_view then [GameEvent.display inst]
          else [])) ∧
    (gd.resources.get ResourceType.Dialog did = none →
       gd.set_dialog did =
         (gd, [GameEvent.logError ("Could not find dialog " ++ did)])) ∧
    (∀ inst, gd.resources.get ResourceType.Dialog did = some inst →
       gd.set_dialog did =
         ({ gd with state := GameState.Dialog, dialog := some inst },
          if gd.view.is_game_view then [GameEvent.display inst]
          else [])) := by
  refine ⟨?_, ?_, ?_, ?_⟩
  · intro h
    simp [GameData.set_location, h]
  · intro inst h hhook
    simp [GameData.set_location, h, hhook, GameData.displayEvents]
  · intro h
    simp [GameData.set_dialog, h]
  · intro inst h
    simp [GameData.set_dialog, h, GameData.displayEvents]

/-- Witness for C5 at concrete inputs: with the default do-nothing start
hook, entering the loaded location loc1 sets the Location state and
displays it on the game view, and a missing dialog id logs an error and
changes nothing. -/
theorem C5_set_location_dialog_witness :
    GameData.set_location defaultStartHook c5gd "loc1" =
      ({ c5gd with state := GameState.Location,
                   location :=
                     some (Resource.make ResourceType.Location "loc1" 1),
                   add_loc_text := true },
       [GameEvent.display (Resource.make ResourceType.Location "loc1" 1)]) ∧
    c5gd.set_dialog "nope" =
      (c5gd, [GameEvent.logError "Could not find dialog nope"]) := by
  have h := C5_set_location_dialog defaultStartHook c5gd "loc1" "nope"
  refine ⟨?_, ?_⟩
  · exact (h.2.1 (Resource.make ResourceType.Location "loc1" 1) (by decide)
      (fun g => rfl)).trans (by rfl)
  · exact (h.2.2.1 (by decide)).trans (by rfl)

/- ## Claim C6: Package.load -/

theorem count_add_none (rs : Resources) (r : Resource)
    (h : (rs.add r).2 = none) :
    (rs.add r).1.count = rs.count + 1 := by
  by_cases hc : dictContains (rs.map r.type_id) r.resource_id
  · simp [Resources.add, hc] at h
  · simp only [Bool.not_eq_true] at hc
    unfold Resources.count
    cases ht : r.type_id <;>
      simp [Resources.add, ht ▸ hc, ResourceType.all, ht,
        dictSet_length_of_not_contains _ _ _ (ht ▸ hc)] <;>
      omega

theorem loadItems_count (items : List (String × ModuleItem))
    (st : PackageState) (c : Nat) :
    (loadItems items st c).1.resources.count + c =
      st.resources.count + (loadItems items st c).2.1 := by
  induction items generalizing st c with
  | nil => simp [loadItems]
  | cons hd rest ih =>
      obtain ⟨name, item⟩ := hd
      by_cases hname : startsWithUnderscore name
      · simp only [loadItems, if_pos hname]
        exact ih st c
      · cases item with
        | cls isRes instantiate =>
            cases hR : isRes with
            | false =>
                simp only [loadItems, if_neg hname, hR, Bool.false_eq_true,
                  if_neg (Bool.false_ne_true)]
                exact ih st c
            | true =>
                cases instantiate with
                | ok r =>
                    cases hadd : (st.resources.add r).2 with
                    | none =>
                        have hcount := count_add_none st.resources r hadd
                        simp only [loadItems, if_neg hname,
                          eq_self_iff_true, if_true, hadd]
                        have := ih { st with
                          resources := (st.resources.add r).1 } (c + 1)
                        simp only at this
                        omega
                    | some e =>
                        simp only [loadItems, if_neg hname,
                          eq_self_iff_true, if_true, hadd]
                        have := ih (ctxError st) c
                        simp only [ctxError] at this ⊢
                        omega
                | error e =>
                    simp only [loadItems, if_neg hname,
                      eq_self_iff_true, if_true]
                    have := ih (ctxError st) c
                    simp only [ctxError] at this ⊢
                    omega
        | obj value =>
            cases value with
            | some r =>
                cases hadd : (st.resources.add r).2 with
                | none =>
                    have hcount := count_add_none st.resources r hadd
                    simp only [loadItems, if_neg hname, hadd]
                    have := ih { st with
                      resources := (st.resources.add r).1 } (c + 1)
                    simp only at this
                    omega
                | some e =>
                    simp only [loadItems, if_neg hname, hadd]
            | none =>
                simp only [loadItems, if_neg hname]
                exact ih st c

theorem processAuthor_resources (st : PackageState) (v : Option PyVal) :
    (processAuthor st v).resources = st.resources := by
  rcases v with _ | pv
  · rfl
  · cases pv <;> rfl

theorem processVersion_resources (st : PackageState) (v : Option PyVal) :
    (processVersion st v).resources = st.resources := by
  rcases v with _ | pv
  · rfl
  · cases pv <;> rfl

theorem processDeps_resources (st : PackageState) (v : Option PyVal) :
    (processDeps st v).resources = st.resources := by
  rcases v with _ | pv
  · rfl
  · cases pv <;> rfl

theorem loadFile_count (st : PackageState)
    (content : Except PyExc PyModule) :
    (loadFile st content).1.resources.count =
      st.resources.count + (loadFile st content).2 := by
  cases content with
  | error e => simp [loadFile, ctxError]
  | ok m =>
      have h3 : (processDeps (processVersion (processAuthor st m.author)
          m.version) m.dependencies).resources = st.resources := by
        rw [processDeps_resources, processVersion_resources,
          processAuthor_resources]
      have h := loadItems_count m.items
        (processDeps (processVersion (processAuthor st m.author)
          m.version) m.dependencies) 0
      rw [h3] at h
      simp only [loadFile]
      cases habort : (loadItems m.items
          (processDeps (processVersion (processAuthor st m.author)
            m.version) m.dependencies) 0).2.2 with
      | none =>
          simp only [habort]
          omega
      | some e =>
          simp only [habort, ctxError]
          omega

mutual

theorem loadNode_count (node : PathNode) (st : PackageState) :
    (loadNode st node).1.resources.count =
      st.resources.count + (loadNode st node).2 := by
  cases node with
  | file content => exact loadFile_count st content
  | dir entries => exact loadDirEntries_count entries st
  | other => simp [loadNode]
termination_by sizeOf node

theorem loadDirEntries_count (l : PathForest) (st : PackageState) :
    (loadDirEntries l st).1.resources.count =
      st.resources.count + (loadDirEntries l st).2 := by
  cases l with
  | nil => simp [loadDirEntries]
  | cons name node rest =>
      by_cases h : name = "__pycache__"
      · have heq : loadDirEntries (PathForest.cons name node rest) st =
            loadDirEntries rest st := by
          rw [loadDirEntries.eq_def]
          simp [h]
        rw [heq]
        exact loadDirEntries_count rest st
      · cases node with
        | other =>
            have heq : loadDirEntries
                (PathForest.cons name PathNode.other rest) st =
                loadDirEntries rest st := by
              rw [loadDirEntries.eq_def]
              simp [h]
            rw [heq]
            exact loadDirEntries_count rest st
        | file content =>
            have heq : loadDirEntries
                (PathForest.cons name (PathNode.file content) rest) st =
                ((loadDirEntries rest
                    (loadNode st (PathNode.file content)).1).1,
                 (loadNode st (PathNode.file content)).2 +
                   (loadDirEntries rest
                     (loadNode st (PathNode.file content)).1).2) := by
              rw [loadDirEntries.eq_def]
              simp [h]
            rw [heq]
            dsimp only
            have h1 := loadNode_count (PathNode.file content) st
            have h2 := loadDirEntries_count rest
              (loadNode st (PathNode.file content)).1
            omega
        | dir entries =>
            have heq : loadDirEntries
                (PathForest.cons name (PathNode.dir entries) rest) st =
                ((loadDirEntries rest
                    (loadNode st (PathNode.dir entries)).1).1,
                 (loadNode st (PathNode.dir entries)).2 +
                   (loadDirEntries rest
                     (loadNode st (PathNode.dir entries)).1).2) := by
              rw [loadDirEntries.eq_def]
              simp [h]
            rw [heq]
            dsimp only
            have h1 := loadNode_count (PathNode.dir entries) st
            have h2 := loadDirEntries_count rest
              (loadNode st (PathNode.dir entries)).1
            omega
termination_by sizeOf l

end

/-- Claim C6: Package.load raises only PackageNotFoundError (for a
missing path) and PackageLoadError (for a path which is neither a file
nor a directory); in every other case it returns, with the count of
resources successfully added; a failed script import is caught, counted
as one context error and loads nothing from that file; and an exception
while instantiating an exported Resource subclass is caught, counted, and
the item loop continues with the remaining items. -/
theorem C6_package_load (st : PackageState) (node : Option PathNode) :
    (packageLoad st node = Except.error PackageLoadExc.packageNotFound ↔
       node = none) ∧
    (packageLoad st node =
        Except.error (PackageLoadExc.packageLoadError
          "not a file or directory") ↔
       node = some PathNode.other) ∧
    (∀ st1 n, packageLoad st node = Except.ok (st1, n) →
       st1.resources.count = st.resources.count + n) ∧
    (∀ e, loadFile st (Except.error e) = (ctxError st, 0)) ∧
    (∀ name e rest c, startsWithUnderscore name = false →
       loadItems ((name, ModuleItem.cls true (Except.error e)) :: rest)
           st c =
         loadItems rest (ctxError st) c) := by
  refine ⟨?_, ?_, ?_, ?_, ?_⟩
  · rcases node with _ | nd
    · simp [packageLoad]
    · cases nd <;> simp [packageLoad]
  · rcases node with _ | nd
    · simp [packageLoad]
    · cases nd <;> simp [packageLoad]
  · intro st1 n h
    rcases node with _ | nd
    · simp [packageLoad] at h
    · cases nd with
      | file content =>
          simp only [packageLoad, Except.ok.injEq] at h
          have := loadFile_count st content
          rw [h] at this
          simpa using this
      | dir entries =>
          simp only [packageLoad, Except.ok.injEq] at h
          have := loadDirEntries_count entries st
          rw [h] at this
          simpa using this
      | other => simp [packageLoad] at h
  · intro e
    rfl
  · intro name e rest c hname
    simp [loadItems, hname]

/-- Witness for C6 at concrete inputs: loading the c6node package
directory (one good script with one failing class, a compiled cache
folder, one script whose import raises) returns two loaded resources,
counts two errors, and the resource count grows by exactly the returned
number. -/
theorem C6_package_load_witness :
    (loadDirEntries c6entries c6st).1.resources.count =
      c6st.resources.count + (loadDirEntries c6entries c6st).2 ∧
    loadFile c6st (Except.error (PyExc.raised "syntax")) =
      (ctxError c6st, 0) ∧
    (loadDirEntries c6entries c6st).1.errors = 2 ∧
    (loadDirEntries c6entries c6st).2 = 2 := by
  have h := C6_package_load c6st (some c6node)
  refine ⟨h.2.2.1 _ _ rfl, h.2.2.2.1 _, ?_, ?_⟩
  · decide
  · decide

/- ## Claim C1: Resources.merge -/

theorem set_get_same (m : Resources) (t0 : ResourceType) (k0 : String)
    (v : Resource) :
    dictGet ((m.set t0 k0 v).map t0) k0 = some v := by
  simp [Resources.set, dictGet_dictSet_same]

theorem set_get_ne (m : Resources) (t0 : ResourceType) (k0 : String)
    (v : Resource) (t : ResourceType) (k : String)
    (h : t ≠ t0 ∨ k ≠ k0) :
    dictGet ((m.set t0 k0 v).map t) k = dictGet (m.map t) k := by
  by_cases ht : t = t0
  · subst ht
    have hk : k ≠ k0 := by
      rcases h with h | h
      · exact absurd rfl h
      · exact h
    simp [Resources.set, dictGet_dictSet_ne _ _ _ _ (Ne.symm hk)]
  · simp [Resources.set, ht]

theorem findEntry_eq_none (L : List (ResourceType × String × Resource))
    (t : ResourceType) (k : String)
    (h : (t, k) ∉ L.map fun e => (e.1, e.2.1)) :
    findEntry L t k = none := by
  induction L with
  | nil => rfl
  | cons e rest ih =>
      simp only [List.map_cons, List.mem_cons] at h
      push_neg at h
      have hne : ¬ (e.1 = t ∧ e.2.1 = k) := by
        intro hx
        exact h.1 (by rw [hx.1, hx.2])
      simp only [findEntry, if_neg hne]
      exact ih h.2

theorem findEntry_some_mem (L : List (ResourceType × String × Resource))
    (t : ResourceType) (k : String) (v : Resource)
    (h : findEntry L t k = some v) :
    (t, k) ∈ L.map fun e => (e.1, e.2.1) := by
  induction L with
  | nil => simp [findEntry] at h
  | cons e rest ih =>
      by_cases he : e.1 = t ∧ e.2.1 = k
      · simp only [List.map_cons, List.mem_cons]
        exact Or.inl (by rw [he.1, he.2])
      · simp only [findEntry, if_neg he] at h
        simp only [List.map_cons, List.mem_cons]
        exact Or.inr (ih h)

theorem findEntry_append (l1 l2 : List (ResourceType × String × Resource))
    (t : ResourceType) (k : String) :
    findEntry (l1 ++ l2) t k =
      (match findEntry l1 t k with
       | some v => some v
       | none => findEntry l2 t k) := by
  induction l1 with
  | nil => simp [findEntry]
  | cons e rest ih =>
      by_cases he : e.1 = t ∧ e.2.1 = k
      · simp [findEntry, if_pos he]
      · simp only [List.cons_append, findEntry, if_neg he]
        exact ih

theorem conflictList_nil (m : Resources) (masters : List String) :
    conflictList m [] masters = [] := rfl

theorem conflictList_congr (m1 m2 : Resources)
    (L : List (ResourceType × String × Resource)) (masters : List String)
    (h : ∀ e ∈ L, dictGet (m1.map e.1) e.2.1 = dictGet (m2.map e.1) e.2.1) :
    conflictList m1 L masters = conflictList m2 L masters := by
  induction L with
  | nil => rfl
  | cons e rest ih =>
      have he := h e (List.mem_cons_self e rest)
      have hrest := ih fun x hx => h x (List.mem_cons_of_mem e hx)
      simp only [conflictList, List.filterMap_cons] at hrest ⊢
      rw [he, hrest]

theorem joinMsgs_append (masters : List String)
    (c : ResourceType × String × Option String)
    (cl : List (ResourceType × String × Option String)) (err : String) :
    err ++ joinMsgs masters (c :: cl) =
      (err ++ conflictMessage masters c) ++ joinMsgs masters cl := by
  rw [joinMsgs, String.append_assoc]

/-- The merge loop, characterized: starting from the collection m and the
accumulated error string err, folding the merge step over a list of
enumerated items with pairwise-distinct (type, key) pairs yields the
collection in which every item of the list is resolved against m (kept
new items and master-replaced items overwrite, conflicting items leave
the old binding), and appends to err exactly the rendered messages of the
conflicts of the list against m, in order. -/
theorem merge_fold (masters : List String)
    (L : List (ResourceType × String × Resource)) (m : Resources)
    (err : String)
    (hnd : (L.map fun e => (e.1, e.2.1)).Nodup) :
    (∀ t k,
      dictGet ((L.foldl (mergeStep masters) (m, err)).1.map t) k =
        (match findEntry L t k with
         | some v =>
             (match dictGet (m.map t) k with
              | some old =>
                  if pkgMem old.package masters then some v else some old
              | none => some v)
         | none => dictGet (m.map t) k)) ∧
    (L.foldl (mergeStep masters) (m, err)).2 =
      err ++ joinMsgs masters (conflictList m L masters) := by
  induction L generalizing m err with
  | nil =>
      refine ⟨fun t k => by simp [findEntry], ?_⟩
      simp [conflictList_nil, joinMsgs]
  | cons e rest ih =>
      obtain ⟨t0, e2⟩ := e
      obtain ⟨k0, v0⟩ := e2
      simp only [List.map_cons, List.nodup_cons] at hnd
      have hkey : (t0, k0) ∉ rest.map fun e => (e.1, e.2.1) := hnd.1
      have hnd2 := hnd.2
      have hfe_rest_none : findEntry rest t0 k0 = none :=
        findEntry_eq_none rest t0 k0 hkey
      have hrest_congr : ∀ (v : Resource), ∀ x ∈ rest,
          dictGet (((m.set t0 k0 v).map x.1)) x.2.1 =
            dictGet (m.map x.1) x.2.1 := by
        intro v x hx
        apply set_get_ne
        by_cases hxt : x.1 = t0
        · right
          intro hxk
          exact hkey (by
            rw [← hxt, ← hxk]
            exact List.mem_map_of_mem (fun e => (e.1, e.2.1)) hx)
        · left
          exact hxt
      cases hold : dictGet (m.map t0) k0 with
      | some old =>
          by_cases hpkg : pkgMem old.package masters = true
          · have hstep : mergeStep masters (m, err) (t0, k0, v0) =
                (m.set t0 k0 v0, err) := by
              simp [mergeStep, hold, hpkg]
            rw [List.foldl_cons, hstep]
            have ihm := ih (m.set t0 k0 v0) err hnd2
            have hconfl : conflictList (m.set t0 k0 v0) rest masters =
                conflictList m rest masters :=
              conflictList_congr _ _ rest masters (hrest_congr v0)
            constructor
            · intro t k
              rw [ihm.1 t k]
              by_cases hm : t0 = t ∧ k0 = k
              · obtain ⟨ht, hk⟩ := hm
                subst ht
                subst hk
                rw [hfe_rest_none, set_get_same]
                simp [findEntry, hold, hpkg]
              · have hne : t ≠ t0 ∨ k ≠ k0 := by
                  by_cases ht : t = t0
                  · right
                    intro hk
                    exact hm ⟨ht.symm, hk.symm⟩
                  · left
                    exact ht
                have hget := set_get_ne m t0 k0 v0 t k hne
                simp only [findEntry, if_neg hm, hget]
            · rw [ihm.2, hconfl]
              have : conflictList m ((t0, k0, v0) :: rest) masters =
                  conflictList m rest masters := by
                simp [conflictList, List.filterMap_cons, hold, hpkg]
              rw [this]
          · simp only [Bool.not_eq_true] at hpkg
            have hstep : mergeStep masters (m, err) (t0, k0, v0) =
                (m, err ++ conflictMessage masters (t0, k0, old.package)) := by
              simp [mergeStep, hold, hpkg, conflictMessage, fmtReplaceError]
            rw [List.foldl_cons, hstep]
            have ihm := ih m
              (err ++ conflictMessage masters (t0, k0, old.package)) hnd2
            constructor
            · intro t k
              rw [ihm.1 t k]
              by_cases hm : t0 = t ∧ k0 = k
              · obtain ⟨ht, hk⟩ := hm
                subst ht
                subst hk
                rw [hfe_rest_none]
                simp [findEntry, hold, hpkg]
              · simp only [findEntry, if_neg hm]
            · rw [ihm.2]
              have : conflictList m ((t0, k0, v0) :: rest) masters =
                  (t0, k0, old.package) :: conflictList m rest masters := by
                simp [conflictList, List.filterMap_cons, hold, hpkg]
              rw [this, joinMsgs_append]
      | none =>
          have hstep : mergeStep masters (m, err) (t0, k0, v0) =
              (m.set t0 k0 v0, err) := by
            simp [mergeStep, hold]
          rw [List.foldl_cons, hstep]
          have ihm := ih (m.set t0 k0 v0) err hnd2
          have hconfl : conflictList (m.set t0 k0 v0) rest masters =
              conflictList m rest masters :=
            conflictList_congr _ _ rest masters (hrest_congr v0)
          constructor
          · intro t k
            rw [ihm.1 t k]
            by_cases hm : t0 = t ∧ k0 = k
            · obtain ⟨ht, hk⟩ := hm
              subst ht
              subst hk
              rw [hfe_rest_none, set_get_same]
              simp [findEntry, hold]
            · have hne : t ≠ t0 ∨ k ≠ k0 := by
                by_cases ht : t = t0
                · right
                  intro hk
                  exact hm ⟨ht.symm, hk.symm⟩
                · left
                  exact ht
              have hget := set_get_ne m t0 k0 v0 t k hne
              simp only [findEntry, if_neg hm, hget]
          · rw [ihm.2, hconfl]
            have : conflictList m ((t0, k0, v0) :: rest) masters =
                conflictList m rest masters := by
              simp [conflictList, List.filterMap_cons, hold]
            rw [this]

/-- The (type, key) pairs of the enumeration of a well-formed collection
are pairwise distinct. -/
theorem WF_enumerate_nodup (B : Resources) (hB : B.WF) :
    (B.enumerate.map fun e => (e.1, e.2.1)).Nodup := by
  have hbk : ∀ t : ResourceType,
      (((B.map t).map fun p => (p.2.type_id, p.1, p.2)).map
          fun e => (e.1, e.2.1)) =
        ((B.map t).map Prod.fst).map fun k => (t, k) := by
    intro t
    rw [List.map_map, List.map_map]
    apply List.map_congr_left
    intro p hp
    simp [Function.comp, ((hB t).2 p hp).1]
  have hinj : ∀ t : ResourceType,
      Function.Injective fun k : String => (t, k) := by
    intro t k1 k2 h
    exact (Prod.mk.injEq t k1 t k2).mp h |>.2
  have hnodup_bucket : ∀ t : ResourceType,
      (((B.map t).map fun p => (p.2.type_id, p.1, p.2)).map
          fun e => (e.1, e.2.1)).Nodup := by
    intro t
    rw [hbk t]
    exact List.Nodup.map (hinj t) (hB t).1
  have hfst : ∀ (t : ResourceType) (a : ResourceType × String),
      a ∈ (((B.map t).map fun p => (p.2.type_id, p.1, p.2)).map
          fun e => (e.1, e.2.1)) → a.1 = t := by
    intro t a ha
    rw [hbk t] at ha
    simp only [List.mem_map] at ha
    obtain ⟨k, hk, rfl⟩ := ha
    rfl
  have main : ∀ ts : List ResourceType, ts.Nodup →
      ((ts.flatMap fun t =>
          (B.map t).map fun p => (p.2.type_id, p.1, p.2)).map
        fun e => (e.1, e.2.1)).Nodup := by
    intro ts hts
    induction ts with
    | nil => simp
    | cons t ts ih =>
        simp only [List.nodup_cons] at hts
        rw [List.flatMap_cons, List.map_append, List.nodup_append]
        refine ⟨hnodup_bucket t, ih hts.2, ?_⟩
        intro a ha1 ha2
        have h1 : a.1 = t := hfst t a ha1
        rw [List.map_flatMap] at ha2
        simp only [List.mem_flatMap] at ha2
        obtain ⟨t2, ht2, hat2⟩ := ha2
        have h2 : a.1 = t2 := hfst t2 a hat2
        rw [h1] at h2
        rw [h2] at hts
        exact hts.1 ht2
  exact main ResourceType.all (by decide)

/-- The enumerated items of one per-type bucket, looked up with
findEntry: a hit is possible only under the bucket's own tag, and then it
is the dictionary lookup. -/
theorem findEntry_bucketList (bucket : List (String × Resource))
    (t0 t : ResourceType) (k : String)
    (htag : ∀ p ∈ bucket, p.2.type_id = t0) :
    findEntry (bucket.map fun p => (p.2.type_id, p.1, p.2)) t k =
      if t0 = t then dictGet bucket k else none := by
  induction bucket with
  | nil => simp [findEntry, dictGet]
  | cons p ps ih =>
      have hp : p.2.type_id = t0 := htag p (List.mem_cons_self p ps)
      have hps := ih fun x hx => htag x (List.mem_cons_of_mem p hx)
      obtain ⟨k1, v1⟩ := p
      simp only at hp
      by_cases ht : t0 = t
      · subst ht
        by_cases hk : k1 = k
        · subst hk
          simp [findEntry, hp, dictGet]
        · have hcond : ¬ (v1.type_id = t0 ∧ k1 = k) := fun hx => hk hx.2
          simp [findEntry, hcond, hps, dictGet, hk]
      · have hcond : ¬ (v1.type_id = t ∧ k1 = k) := by
          intro hx
          rw [hp] at hx
          exact ht hx.1
        simp only [List.map_cons, findEntry, if_neg hcond, hps,
          if_neg ht]

/-- Under well-formedness, the first enumerated item with the given tag
and key is exactly the Resources.get lookup. -/
theorem findEntry_enumerate (B : Resources) (hB : B.WF)
    (t : ResourceType) (k : String) :
    findEntry B.enumerate t k = B.get t k := by
  have hb : ∀ t0 : ResourceType,
      findEntry ((B.map t0).map fun p => (p.2.type_id, p.1, p.2)) t k =
        if t0 = t then dictGet (B.map t0) k else none :=
    fun t0 =>
      findEntry_bucketList (B.map t0) t0 t k
        (fun p hp => ((hB t0).2 p hp).1)
  have henum : B.enumerate =
      ((B.map ResourceType.Location).map
          fun p => (p.2.type_id, p.1, p.2)) ++
      (((B.map ResourceType.Dialog).map
          fun p => (p.2.type_id, p.1, p.2)) ++
      (((B.map ResourceType.Item).map
          fun p => (p.2.type_id, p.1, p.2)) ++
      (((B.map ResourceType.Monster).map
          fun p => (p.2.type_id, p.1, p.2)) ++
      ((B.map ResourceType.Callback).map
          fun p => (p.2.type_id, p.1, p.2))))) := by
    simp [Resources.enumerate, ResourceType.all]
  have hopt : ∀ x : Option Resource,
      (match x with | some v => some v | none => none) = x := by
    intro x
    cases x <;> rfl
  rw [henum, findEntry_append, findEntry_append, findEntry_append,
    findEntry_append, hb, hb, hb, hb, hb]
  cases t <;> simp [Resources.get, hopt]

/-- Appending to a string which starts with the letter c keeps that first
letter. -/
theorem head_append (s t : String) (l : List Char)
    (h : s.data = 'c' :: l) : ∃ l2, (s ++ t).data = 'c' :: l2 :=
  ⟨l ++ t.data, by simp [h]⟩

/-- Every rendered conflict message starts with the letter c of cannot
replace, whatever follows it. -/
theorem msg_head (masters : List String)
    (c : ResourceType × String × Option String) (rest : String) :
    ∃ l, (conflictMessage masters c ++ rest).data = 'c' :: l := by
  have h0 : ("cannot replace " : String).data =
      'c' :: "annot replace ".data := rfl
  obtain ⟨l1, h1⟩ := head_append "cannot replace " c.1.name _ h0
  obtain ⟨l2, h2⟩ := head_append _ " " _ h1
  obtain ⟨l3, h3⟩ := head_append _ c.2.1 _ h2
  obtain ⟨l4, h4⟩ := head_append _ "; master " _ h3
  obtain ⟨l5, h5⟩ := head_append _ (pyStrOpt c.2.2) _ h4
  obtain ⟨l6, h6⟩ := head_append _ " not in allowed list " _ h5
  obtain ⟨l7, h7⟩ := head_append _ (pyStrList masters) _ h6
  obtain ⟨l8, h8⟩ := head_append _ rest _ h7
  exact ⟨l8, h8⟩

/-- The stripped error string of a merge with at least one conflict is
non-empty. -/
theorem pyStrip_joinMsgs_ne (masters : List String)
    (c : ResourceType × String × Option String)
    (cl : List (ResourceType × String × Option String)) :
    pyStrip (joinMsgs masters (c :: cl)) ≠ "" := by
  obtain ⟨l, hl⟩ := msg_head masters c (joinMsgs masters cl)
  exact pyStrip_ne_empty 'c' l _ (by rw [joinMsgs]; exact hl) (by decide)

/-- Claim C1: merging B into A with master list M processes each
(type, id, resource) item of B as follows - if A has no resource of that
type and id, B's item is stored; if A has one whose defining package is
in M, it is replaced by B's item; otherwise A keeps its resource and the
merge records a replace error.  The merge returns None exactly when no
conflict occurred, and otherwise returns the stripped concatenation of
the rendered messages of every conflict, a non-empty string. -/
theorem C1_merge (A B : Resources) (M : List String) (hB : B.WF) :
    (∀ t k,
       (A.merge B (some M)).resources.get t k =
         (match B.get t k with
          | some v =>
              (match A.get t k with
               | some old =>
                   if pkgMem old.package M then some v else some old
               | none => some v)
          | none => A.get t k)) ∧
    ((A.merge B (some M)).error = none ↔ A.conflicts B M = []) ∧
    (∀ s, (A.merge B (some M)).error = some s →
       s = pyStrip (joinMsgs M (A.conflicts B M)) ∧ s ≠ "") := by
  have hnd := WF_enumerate_nodup B hB
  have hfold := merge_fold M B.enumerate A "" hnd
  have hres2 : (B.enumerate.foldl (mergeStep M) (A, "")).2 =
      joinMsgs M (conflictList A B.enumerate M) := by
    rw [hfold.2, String.empty_append]
  have herr : (A.merge B (some M)).error =
      (if pyStrip (joinMsgs M (A.conflicts B M)) = "" then none
       else some (pyStrip (joinMsgs M (A.conflicts B M)))) := by
    simp only [Resources.merge, Option.getD, hres2, Resources.conflicts]
  refine ⟨?_, ?_, ?_⟩
  · intro t k
    have h1 := hfold.1 t k
    rw [findEntry_enumerate B hB t k] at h1
    simpa only [Resources.merge, Option.getD, Resources.get] using h1
  · rw [herr]
    cases hcl : A.conflicts B M with
    | nil =>
        have : pyStrip (joinMsgs M
            ([] : List (ResourceType × String × Option String))) = "" := rfl
        simp [this]
    | cons c cl =>
        have hne := pyStrip_joinMsgs_ne M c cl
        rw [if_neg hne]
        simp
  · intro s hs
    rw [herr] at hs
    by_cases hz : pyStrip (joinMsgs M (A.conflicts B M)) = ""
    · rw [if_pos hz] at hs
      exact absurd hs (by simp)
    · rw [if_neg hz] at hs
      have : s = pyStrip (joinMsgs M (A.conflicts B M)) :=
        (Option.some.injEq _ _).mp hs.symm
      exact ⟨this, by rw [this]; exact hz⟩

/-- Witness for C1 at concrete inputs: merging c1B into c1A with master
list base replaces town (its old resource came from the master base),
keeps cave (its old resource came from modA, recording a conflict), adds
keep, and returns a non-empty error string. -/
theorem C1_merge_witness :
    (c1A.merge c1B (some ["base"])).error ≠ none ∧
    (c1A.merge c1B (some ["base"])).resources.get
      ResourceType.Location "town" = some c1BTown ∧
    (c1A.merge c1B (some ["base"])).resources.get
      ResourceType.Location "cave" = some c1ACave ∧
    (c1A.merge c1B (some ["base"])).resources.get
      ResourceType.Location "keep" = some c1BKeep := by
  have h := C1_merge c1A c1B ["base"] (by decide)
  refine ⟨?_, ?_, ?_, ?_⟩
  · intro hnone
    have hcl := (h.2.1).mp hnone
    have hne : c1A.conflicts c1B ["base"] ≠ [] := by decide
    exact hne hcl
  · rw [h.1 ResourceType.Location "town"]
    decide
  · rw [h.1 ResourceType.Location "cave"]
    decide
  · rw [h.1 ResourceType.Location "keep"]
    decide

end Txtrpg
